import Mathlib

/-!
Shallow embedding of the approval routing and workflow-state engine of
be-ap-invoices (internal/service/invoice_service.go,
internal/repository/approval_workflow_repository.go,
internal/repository/invoice_repository.go,
internal/repository/approval_audit_repository.go,
internal/repository/approval_types.go).

Modelling conventions:
- the relational store is a `DB` record of lists; SQL reads become `find?` or
  `filter`, SQL UPDATE becomes `map` with a row predicate, `RETURNING id` with
  `pgx.ErrNoRows` becomes an existence check;
- Go `time.Time` / SQL `NOW()` are a `Nat` clock value `now` passed to each
  operation (all NOW() calls inside one operation observe the same instant);
- Go `int` / `int64` are `Int`;
- fallible repository calls return `Except Err`; service operations mirror the
  Go `if err != nil { return err }` chains with explicit matches, so an error
  result models the operation aborting (precondition failures occur before any
  write, so the caller keeps the unmodified `DB`);
- the external identity resolver is a function parameter; the possibility that
  the audit-log INSERT fails at the database is an `auditOK : Bool` parameter;
- UUID generation (`RETURNING id` on INSERT) is a counter `nextID` in `DB`;
- timestamp bookkeeping columns that no approval operation reads
  (`created_at`, rule timestamps) are elided from the records.
-/

namespace APInvoices

/-- Error codes of the be-lib-common errors package used by the engine. -/
inductive ErrCode
  | notFound
  | conflict
  | invalidInput
  | unauthorized
  | internal
deriving DecidableEq, Repr

/-- An error value: a code plus a message string. -/
structure Err where
  code : ErrCode
  msg : String
deriving DecidableEq, Repr

/-- repository.ApprovalRuleStep: one entry of a rule's approval_steps array. -/
structure ApprovalRuleStep where
  step : Int
  role : String
  required : Bool
deriving DecidableEq, Repr

/-- repository.ApprovalRule: a configurable routing rule per entity. -/
structure ApprovalRule where
  id : String
  entityID : String
  ruleName : String
  ruleType : String
  isActive : Bool
  minAmount : Option Int
  maxAmount : Option Int
  vendorID : Option String
  department : Option String
  approvalSteps : List ApprovalRuleStep
  priority : Int
deriving DecidableEq, Repr

/-- repository.ApprovalWorkflow: a workflow instance for an invoice submission. -/
structure ApprovalWorkflow where
  id : String
  invoiceID : String
  entityID : String
  ruleID : Option String
  status : String
  totalSteps : Int
  currentStep : Int
  submittedBy : String
  submittedAt : Nat
  completedAt : Option Nat
  submissionNotes : Option String
  updatedAt : Nat
deriving DecidableEq, Repr

/-- repository.ApprovalWorkflowStep: a single approval step within a workflow. -/
structure ApprovalWorkflowStep where
  id : String
  workflowID : String
  invoiceID : String
  entityID : String
  stepNumber : Int
  requiredRole : String
  isRequired : Bool
  assignedTo : Option String
  assignedAt : Option Nat
  delegatedTo : Option String
  delegatedAt : Option Nat
  delegatedReason : Option String
  status : String
  actedBy : Option String
  actedAt : Option Nat
  actionNotes : Option String
  dueAt : Option Nat
  updatedAt : Nat
deriving DecidableEq, Repr

/-- A metadata value of the free-form audit metadata map (string or int are the
only value shapes the engine writes). -/
inductive MetaVal
  | str (s : String)
  | int (i : Int)
deriving DecidableEq, Repr

/-- repository.ApprovalAuditEntry: one immutable audit-log record. -/
structure ApprovalAuditEntry where
  id : String
  invoiceID : String
  workflowID : Option String
  stepID : Option String
  entityID : String
  action : String
  performedBy : String
  performedAt : Nat
  invoiceStatusBefore : Option String
  invoiceStatusAfter : Option String
  metadata : List (String × MetaVal)
deriving DecidableEq, Repr

/-- repository.InvoiceLine, restricted to the dimension_2 column, the only line
column the approval engine reads (department for rule matching). -/
structure InvoiceLine where
  dimension2 : Option String
deriving DecidableEq, Repr

/-- repository.Invoice, restricted to the columns the approval operations read
or write (id, entity_id, vendor_id, invoice_number, status, total_amount,
approved_by, approved_at, approval_notes, updated_by, updated_at, lines). -/
structure Invoice where
  id : String
  entityID : String
  vendorID : String
  invoiceNumber : String
  status : String
  totalAmount : Int
  approvedBy : Option String
  approvedAt : Option Nat
  approvalNotes : Option String
  updatedBy : Option String
  updatedAt : Nat
  lines : List InvoiceLine
deriving DecidableEq, Repr

/-- The relational store the approval engine operates on. -/
structure DB where
  rules : List ApprovalRule
  workflows : List ApprovalWorkflow
  steps : List ApprovalWorkflowStep
  invoices : List Invoice
  audit : List ApprovalAuditEntry
  nextID : Nat
deriving DecidableEq, Repr

/-- Fresh row id allocated by an INSERT ... RETURNING id. -/
def freshId (n : Nat) : String := "id-" ++ toString n

/-- Row lookup behind ApprovalWorkflowRepository.GetByID. -/
def findWorkflow (db : DB) (id : String) : Option ApprovalWorkflow :=
  db.workflows.find? (fun w => w.id == id)

/-- ApprovalWorkflowRepository.GetByID. -/
def workflowGetByID (db : DB) (id : String) : Except Err ApprovalWorkflow :=
  match findWorkflow db id with
  | some wf => .ok wf
  | none => .error ⟨.notFound, "approval_workflow: " ++ id⟩

/-- ApprovalWorkflowRepository.UpdateStatus: sets status, completed_at,
updated_at on the matching row; ErrNoRows when the id matches nothing. -/
def workflowUpdateStatus (db : DB) (id status : String) (completedAt : Option Nat)
    (now : Nat) : Except Err DB :=
  if db.workflows.any (fun w => w.id == id) then
    .ok { db with workflows := db.workflows.map (fun w =>
      if w.id == id then
        { w with status := status, completedAt := completedAt, updatedAt := now }
      else w) }
  else .error ⟨.notFound, "approval_workflow: " ++ id⟩

/-- ApprovalWorkflowRepository.AdvanceStep: sets current_step to nextStep and
status to in_progress; ErrNoRows when the id matches nothing. -/
def workflowAdvanceStep (db : DB) (id : String) (nextStep : Int) (now : Nat) :
    Except Err DB :=
  if db.workflows.any (fun w => w.id == id) then
    .ok { db with workflows := db.workflows.map (fun w =>
      if w.id == id then
        { w with currentStep := nextStep, status := "in_progress", updatedAt := now }
      else w) }
  else .error ⟨.notFound, "approval_workflow: " ++ id⟩

/-- Row lookup behind ApprovalStepsRepository.GetCurrentStep: the step at the
given step_number within a workflow. -/
def findStepAt (db : DB) (workflowID : String) (stepNumber : Int) :
    Option ApprovalWorkflowStep :=
  db.steps.find? (fun st => st.workflowID == workflowID && st.stepNumber == stepNumber)

/-- ApprovalStepsRepository.GetCurrentStep. -/
def stepsGetCurrentStep (db : DB) (workflowID : String) (stepNumber : Int) :
    Except Err ApprovalWorkflowStep :=
  match findStepAt db workflowID stepNumber with
  | some st => .ok st
  | none => .error ⟨.notFound, "approval_step: " ++ workflowID⟩

/-- Step lookup by primary key, used to state what an UPDATE changed. -/
def findStepById (db : DB) (id : String) : Option ApprovalWorkflowStep :=
  db.steps.find? (fun st => st.id == id)

/-- ApprovalStepsRepository.UpdateStepAction: records an approval action
outcome (status, acted_by, acted_at, action_notes) on the row with this id. -/
def stepsUpdateStepAction (db : DB) (id status actedBy : String)
    (notes : Option String) (now : Nat) : Except Err DB :=
  if db.steps.any (fun st => st.id == id) then
    .ok { db with steps := db.steps.map (fun st =>
      if st.id == id then
        { st with status := status, actedBy := some actedBy, actedAt := some now,
                  actionNotes := notes, updatedAt := now }
      else st) }
  else .error ⟨.notFound, "approval_step: " ++ id⟩

/-- ApprovalStepsRepository.DelegateStep: conditional UPDATE guarded by
status = pending; zero rows matched surfaces as a Conflict. -/
def stepsDelegateStep (db : DB) (id delegatedTo reason : String) (now : Nat) :
    Except Err DB :=
  if db.steps.any (fun st => st.id == id && st.status == "pending") then
    .ok { db with steps := db.steps.map (fun st =>
      if st.id == id && st.status == "pending" then
        { st with status := "delegated", delegatedTo := some delegatedTo,
                  delegatedAt := some now, delegatedReason := some reason,
                  updatedAt := now }
      else st) }
  else .error ⟨.conflict, "step not found or not in pending status"⟩

/-- ApprovalStepsRepository.RecallSteps: marks every pending step of the
workflow recalled (db.Exec; zero matched rows is not an error). -/
def stepsRecallSteps (db : DB) (workflowID : String) (now : Nat) : DB :=
  { db with steps := db.steps.map (fun st =>
    if st.workflowID == workflowID && st.status == "pending" then
      { st with status := "recalled", updatedAt := now }
    else st) }

/-- Row lookup behind InvoiceRepository.GetByID. -/
def findInvoice (db : DB) (id entityID : String) : Option Invoice :=
  db.invoices.find? (fun inv => inv.id == id && inv.entityID == entityID)

/-- InvoiceRepository.GetByID. -/
def invoiceGetByID (db : DB) (id entityID : String) : Except Err Invoice :=
  match findInvoice db id entityID with
  | some inv => .ok inv
  | none => .error ⟨.notFound, "invoice: " ++ id⟩

/-- InvoiceRepository.UpdateStatus. -/
def invoiceUpdateStatus (db : DB) (id entityID status : String)
    (updatedBy : Option String) (now : Nat) : Except Err DB :=
  if db.invoices.any (fun inv => inv.id == id && inv.entityID == entityID) then
    .ok { db with invoices := db.invoices.map (fun inv =>
      if inv.id == id && inv.entityID == entityID then
        { inv with status := status, updatedBy := updatedBy, updatedAt := now }
      else inv) }
  else .error ⟨.notFound, "invoice: " ++ id⟩

/-- InvoiceRepository.Approve: sets status approved, approved_by, approved_at,
approval_notes. -/
def invoiceApprove (db : DB) (id entityID : String) (approvedBy : Option String)
    (notes : Option String) (now : Nat) : Except Err DB :=
  if db.invoices.any (fun inv => inv.id == id && inv.entityID == entityID) then
    .ok { db with invoices := db.invoices.map (fun inv =>
      if inv.id == id && inv.entityID == entityID then
        { inv with status := "approved", approvedBy := approvedBy,
                   approvedAt := some now, approvalNotes := notes, updatedAt := now }
      else inv) }
  else .error ⟨.notFound, "invoice: " ++ id⟩

/-- ApprovalAuditRepository.Append wrapped by the service helper appendAudit:
the INSERT either succeeds (auditOK, entry appended with a fresh id and
performed_at stamped) or fails at the database (not auditOK), in which case the
service logs a warning and changes nothing — the failure is never returned. -/
def appendAudit (auditOK : Bool) (db : DB) (e : ApprovalAuditEntry) (now : Nat) : DB :=
  if auditOK then
    { db with
      audit := db.audit ++ [{ e with id := freshId db.nextID, performedAt := now }],
      nextID := db.nextID + 1 }
  else db

/-- ApprovalRulesRepository.ruleMatches: whether a rule's type-specific
criteria all match the invoice attributes. The Go early returns
(min set and amount below it, or max set and amount at or above it) become the
two conjuncts of the amount_based arm; an unknown rule_type matches nothing. -/
def ruleMatches (rule : ApprovalRule) (amount : Int)
    (vendorID : Option String) (department : Option String) : Bool :=
  match rule.ruleType with
  | "amount_based" =>
    (match rule.minAmount with
     | some minA => !(amount < minA)
     | none => true) &&
    (match rule.maxAmount with
     | some maxA => !(amount ≥ maxA)
     | none => true)
  | "vendor_based" =>
    match rule.vendorID, vendorID with
    | some rv, some v => rv == v
    | _, _ => false
  | "department_based" =>
    match rule.department, department with
    | some rd, some d => rd == d
    | _, _ => false
  | _ => false

/-- The ORDER BY priority ASC, rule_name ASC key of
ApprovalRulesRepository.List. -/
def ruleLE (a b : ApprovalRule) : Prop :=
  a.priority < b.priority ∨ (a.priority = b.priority ∧ a.ruleName ≤ b.ruleName)

instance : DecidableRel ruleLE := fun a b => by
  unfold ruleLE; infer_instance

instance : IsTotal ApprovalRule ruleLE :=
  ⟨fun a b => by
    unfold ruleLE
    rcases lt_trichotomy a.priority b.priority with h | h | h
    · exact Or.inl (Or.inl h)
    · rcases le_total a.ruleName b.ruleName with hn | hn
      · exact Or.inl (Or.inr ⟨h, hn⟩)
      · exact Or.inr (Or.inr ⟨h.symm, hn⟩)
    · exact Or.inr (Or.inl h)⟩

instance : IsTrans ApprovalRule ruleLE :=
  ⟨fun a b c hab hbc => by
    unfold ruleLE at hab hbc ⊢
    rcases hab with h1 | ⟨e1, n1⟩ <;> rcases hbc with h2 | ⟨e2, n2⟩
    · exact Or.inl (lt_trans h1 h2)
    · exact Or.inl (e2 ▸ h1)
    · exact Or.inl (e1 ▸ h2)
    · exact Or.inr ⟨e1.trans e2, le_trans n1 n2⟩⟩

/-- ApprovalRulesRepository.List: all rules of the entity, optionally active
only, ordered by priority then rule_name. -/
def listRules (db : DB) (entityID : String) (activeOnly : Bool) : List ApprovalRule :=
  List.insertionSort ruleLE
    (db.rules.filter (fun r => r.entityID == entityID && (!activeOnly || r.isActive)))

/-- ApprovalRulesRepository.FindMatchingRule: evaluates active rules in
priority order, returns the first match; none (with no error) when the list is
exhausted. -/
def FindMatchingRule (db : DB) (entityID : String) (amount : Int)
    (vendorID : Option String) (department : Option String) :
    Except Err (Option ApprovalRule) :=
  .ok ((listRules db entityID true).find?
    (fun r => ruleMatches r amount vendorID department))

/-- The ORDER BY step_number ASC key of ApprovalStepsRepository.GetByWorkflowID. -/
def stepNumberLE (a b : ApprovalWorkflowStep) : Prop := a.stepNumber ≤ b.stepNumber

instance : DecidableRel stepNumberLE := fun a b => by
  unfold stepNumberLE; infer_instance

/-- ApprovalStepsRepository.GetByWorkflowID: all steps of a workflow ordered by
step_number. -/
def stepsGetByWorkflowID (db : DB) (workflowID : String) : List ApprovalWorkflowStep :=
  List.insertionSort stepNumberLE
    (db.steps.filter (fun st => st.workflowID == workflowID))

/-- Row images of the steps inserted by ApprovalWorkflowRepository.Create:
each step gets a fresh id and the workflow id / invoice id / entity id of the
new workflow header. -/
def assignStepRows (wfRow : ApprovalWorkflow) (nextID now : Nat)
    (steps : List ApprovalWorkflowStep) : List ApprovalWorkflowStep :=
  steps.mapIdx (fun i st =>
    { st with id := freshId (nextID + 1 + i), workflowID := wfRow.id,
              invoiceID := wfRow.invoiceID, entityID := wfRow.entityID,
              updatedAt := now })

/-- Whether every step row satisfies the invoice_approval_steps table
constraints step_number >= 1 and UNIQUE (workflow_id, step_number) (all rows
share the new workflow id, so uniqueness is over step_number). -/
def stepRowsInsertable (stepRows : List ApprovalWorkflowStep) : Bool :=
  stepRows.all (fun st => decide (1 ≤ st.stepNumber))
    && decide (List.Nodup (stepRows.map (fun st => st.stepNumber)))

/-- ApprovalWorkflowRepository.Create: inserts the workflow header and every
step in one transaction. The id/timestamp columns come back from RETURNING;
an INSERT violating the invoice_approval_steps table constraints fails, which
rolls back the entire transaction (no partial workflow). -/
def workflowCreate (db : DB) (wf : ApprovalWorkflow)
    (steps : List ApprovalWorkflowStep) (now : Nat) :
    Except Err (ApprovalWorkflow × List ApprovalWorkflowStep × DB) :=
  let wfRow := { wf with id := freshId db.nextID, submittedAt := now, updatedAt := now }
  let stepRows := assignStepRows wfRow db.nextID now steps
  if stepRowsInsertable stepRows then
    .ok (wfRow, stepRows,
      { db with workflows := db.workflows ++ [wfRow],
                steps := db.steps ++ stepRows,
                nextID := db.nextID + 1 + steps.length })
  else .error ⟨.internal, "failed to create approval step"⟩

/-- Service constant defaultSingleStepRole: used when no rule matches. -/
def defaultSingleStepRole : String := "FINANCE_MANAGER"

/-- ApprovalRoutingService.resolveStepDefs: the rule's ordered step
definitions, or a single default step when there is no rule or its list is
empty. -/
def resolveStepDefs (rule : Option ApprovalRule) : List ApprovalRuleStep :=
  match rule with
  | some r =>
    if r.approvalSteps.length > 0 then r.approvalSteps
    else [⟨1, defaultSingleStepRole, true⟩]
  | none => [⟨1, defaultSingleStepRole, true⟩]

/-- The identity resolver collaborator: GetUsersWithRole, which may fail or
return an empty list. -/
def IdentityResolver := String → String → Except String (List String)

/-- ApprovalRoutingService.buildSteps: converts step definitions into pending
workflow steps, pre-assigning the first user returned for the role; a resolver
failure or empty result leaves the step unassigned (never fatal). -/
def buildSteps (ident : IdentityResolver) (now : Nat) (entityID : String)
    (defs : List ApprovalRuleStep) : List ApprovalWorkflowStep :=
  defs.map (fun d =>
    let base : ApprovalWorkflowStep :=
      { id := "", workflowID := "", invoiceID := "", entityID := "",
        stepNumber := d.step, requiredRole := d.role, isRequired := d.required,
        assignedTo := none, assignedAt := none,
        delegatedTo := none, delegatedAt := none, delegatedReason := none,
        status := "pending", actedBy := none, actedAt := none,
        actionNotes := none, dueAt := none, updatedAt := 0 }
    match ident entityID d.role with
    | .ok (u :: _) => { base with assignedTo := some u, assignedAt := some now }
    | .ok [] => base
    | .error _ => base)

/-- ApprovalRoutingService.CreateApprovalWorkflow: rule matching, step
building, then transactional creation of the workflow with status in_progress,
current_step 1 and total_steps = number of built steps. -/
def CreateApprovalWorkflow (ident : IdentityResolver) (db : DB) (now : Nat)
    (invoice : Invoice) (submittedBy : String) :
    Except Err (ApprovalWorkflow × List ApprovalWorkflowStep × DB) :=
  let department : Option String :=
    match invoice.lines with
    | line :: _ => line.dimension2
    | [] => none
  match FindMatchingRule db invoice.entityID invoice.totalAmount
      (some invoice.vendorID) department with
  | .error e => .error e
  | .ok rule =>
    let stepDefs := resolveStepDefs rule
    let steps := buildSteps ident now invoice.entityID stepDefs
    let ruleID := rule.map (fun r => r.id)
    let wf : ApprovalWorkflow :=
      { id := "", invoiceID := invoice.id, entityID := invoice.entityID,
        ruleID := ruleID, status := "in_progress",
        totalSteps := (steps.length : Int), currentStep := 1,
        submittedBy := submittedBy, submittedAt := 0, completedAt := none,
        submissionNotes := none, updatedAt := 0 }
    workflowCreate db wf steps now

/-- ApprovalRoutingService.assertCanAct: the user is the assigned approver, or
the delegated approver, or the step has neither set (unassigned steps are
actionable by anyone). -/
def assertCanAct (step : ApprovalWorkflowStep) (userID : String) : Except Err Unit :=
  if step.assignedTo = some userID then .ok ()
  else if step.delegatedTo = some userID then .ok ()
  else if step.assignedTo = none ∧ step.delegatedTo = none then .ok ()
  else .error ⟨.unauthorized, "user is not authorized to act on this approval step"⟩

/-- ApprovalRoutingService.ApproveStep: validates workflow in_progress, step
pending and authorization, records the approval, then either advances
current_step or completes the workflow and approves the invoice; finally
appends an audit entry (best effort). Returns true iff the workflow is now
complete. -/
def ApproveStep (auditOK : Bool) (db : DB) (now : Nat)
    (invoiceID workflowID : String) (stepNumber : Int) (actedBy : String)
    (notes : Option String) : Except Err (Bool × DB) :=
  match workflowGetByID db workflowID with
  | .error e => .error e
  | .ok wf =>
  if wf.status ≠ "in_progress" then
    .error ⟨.conflict, "workflow is not in_progress (status: " ++ wf.status ++ ")"⟩
  else
  match stepsGetCurrentStep db workflowID stepNumber with
  | .error e => .error e
  | .ok step =>
  if step.status ≠ "pending" then
    .error ⟨.conflict, "step " ++ toString stepNumber ++ " is not pending (status: "
      ++ step.status ++ ")"⟩
  else
  match assertCanAct step actedBy with
  | .error e => .error e
  | .ok _ =>
  match stepsUpdateStepAction db step.id "approved" actedBy notes now with
  | .error e => .error e
  | .ok db1 =>
  let branch : Except Err (Bool × DB) :=
    if stepNumber < wf.totalSteps then
      match workflowAdvanceStep db1 workflowID (stepNumber + 1) now with
      | .error e => .error e
      | .ok db2 => .ok (false, db2)
    else
      match workflowUpdateStatus db1 workflowID "approved" (some now) now with
      | .error e => .error e
      | .ok db2 =>
      match invoiceApprove db2 invoiceID wf.entityID (some actedBy) notes now with
      | .error e => .error e
      | .ok db3 => .ok (true, db3)
  match branch with
  | .error e => .error e
  | .ok (workflowComplete, db2) =>
    let invoice := (invoiceGetByID db2 invoiceID wf.entityID).toOption
    let invoiceNumber := match invoice with | some inv => inv.invoiceNumber | none => ""
    let statusBefore := "pending_approval"
    let statusAfter := if workflowComplete then "approved" else "pending_approval"
    let entry : ApprovalAuditEntry :=
      { id := "", invoiceID := invoiceID, workflowID := some workflowID,
        stepID := some step.id, entityID := wf.entityID, action := "approved",
        performedBy := actedBy, performedAt := 0,
        invoiceStatusBefore := some statusBefore,
        invoiceStatusAfter := some statusAfter,
        metadata := [("step_number", .int stepNumber),
                     ("invoice_number", .str invoiceNumber)] }
    .ok (workflowComplete, appendAudit auditOK db2 entry now)

/-- ApprovalRoutingService.RejectWorkflow: validates workflow in_progress,
step pending, authorization and a non-empty reason, then rejects the step,
terminates the workflow as rejected, returns the invoice to draft, and appends
an audit entry with the reason in its metadata (best effort). -/
def RejectWorkflow (auditOK : Bool) (db : DB) (now : Nat)
    (invoiceID workflowID : String) (stepNumber : Int)
    (actedBy reason : String) : Except Err DB :=
  match workflowGetByID db workflowID with
  | .error e => .error e
  | .ok wf =>
  if wf.status ≠ "in_progress" then
    .error ⟨.conflict, "workflow is not in_progress (status: " ++ wf.status ++ ")"⟩
  else
  match stepsGetCurrentStep db workflowID stepNumber with
  | .error e => .error e
  | .ok step =>
  if step.status ≠ "pending" then
    .error ⟨.conflict, "step " ++ toString stepNumber ++ " is not pending"⟩
  else
  match assertCanAct step actedBy with
  | .error e => .error e
  | .ok _ =>
  if reason = "" then
    .error ⟨.invalidInput, "rejection reason is required"⟩
  else
  match stepsUpdateStepAction db step.id "rejected" actedBy (some reason) now with
  | .error e => .error e
  | .ok db1 =>
  match workflowUpdateStatus db1 workflowID "rejected" (some now) now with
  | .error e => .error e
  | .ok db2 =>
  match invoiceUpdateStatus db2 invoiceID wf.entityID "draft" (some actedBy) now with
  | .error e => .error e
  | .ok db3 =>
    let entry : ApprovalAuditEntry :=
      { id := "", invoiceID := invoiceID, workflowID := some workflowID,
        stepID := some step.id, entityID := wf.entityID, action := "rejected",
        performedBy := actedBy, performedAt := 0,
        invoiceStatusBefore := some "pending_approval",
        invoiceStatusAfter := some "draft",
        metadata := [("reason", .str reason), ("step_number", .int stepNumber)] }
    .ok (appendAudit auditOK db3 entry now)

/-- ApprovalRoutingService.RecallWorkflow: only the original submitter may
recall, and only from pending or in_progress; recalls every pending step,
terminates the workflow as recalled, returns the invoice to draft, and appends
an audit entry (best effort, no step reference). -/
def RecallWorkflow (auditOK : Bool) (db : DB) (now : Nat)
    (invoiceID workflowID recalledBy : String) : Except Err DB :=
  match workflowGetByID db workflowID with
  | .error e => .error e
  | .ok wf =>
  if wf.submittedBy ≠ recalledBy then
    .error ⟨.unauthorized, "only the submitter can recall the workflow"⟩
  else
  if wf.status ≠ "in_progress" ∧ wf.status ≠ "pending" then
    .error ⟨.conflict, "workflow cannot be recalled from status " ++ wf.status⟩
  else
  let db1 := stepsRecallSteps db workflowID now
  match workflowUpdateStatus db1 workflowID "recalled" (some now) now with
  | .error e => .error e
  | .ok db2 =>
  match invoiceUpdateStatus db2 invoiceID wf.entityID "draft" (some recalledBy) now with
  | .error e => .error e
  | .ok db3 =>
    let entry : ApprovalAuditEntry :=
      { id := "", invoiceID := invoiceID, workflowID := some workflowID,
        stepID := none, entityID := wf.entityID, action := "recalled",
        performedBy := recalledBy, performedAt := 0,
        invoiceStatusBefore := some "pending_approval",
        invoiceStatusAfter := some "draft", metadata := [] }
    .ok (appendAudit auditOK db3 entry now)

/-- ApprovalRoutingService.DelegateStep: the authorized actor delegates the
step to another user with a mandatory reason; the repository update is guarded
by status = pending and transitions it to delegated, stamping delegated_to,
delegated_at and delegated_reason; an audit entry is appended (best effort,
its entity taken from a best-effort workflow read). -/
def DelegateStep (auditOK : Bool) (db : DB) (now : Nat) (workflowID : String)
    (stepNumber : Int) (delegatedBy delegatedTo reason : String) : Except Err DB :=
  match stepsGetCurrentStep db workflowID stepNumber with
  | .error e => .error e
  | .ok step =>
  match assertCanAct step delegatedBy with
  | .error e => .error e
  | .ok _ =>
  if reason = "" then
    .error ⟨.invalidInput, "delegation reason is required"⟩
  else
  match stepsDelegateStep db step.id delegatedTo reason now with
  | .error e => .error e
  | .ok db1 =>
    let entityID := match findWorkflow db1 workflowID with
      | some wf => wf.entityID
      | none => ""
    let entry : ApprovalAuditEntry :=
      { id := "", invoiceID := step.invoiceID, workflowID := some workflowID,
        stepID := some step.id, entityID := entityID, action := "delegated",
        performedBy := delegatedBy, performedAt := 0,
        invoiceStatusBefore := none, invoiceStatusAfter := none,
        metadata := [("delegated_to", .str delegatedTo),
                     ("reason", .str reason),
                     ("step_number", .int stepNumber)] }
    .ok (appendAudit auditOK db1 entry now)

/-- The error code of a result, if it is an error. -/
def errCodeOf {α : Type} (r : Except Err α) : Option ErrCode :=
  match r with
  | .ok _ => none
  | .error e => some e.code

/-- The primary (non-audit) state of the store: workflows, steps, invoices. -/
def primaryOf (db : DB) :
    List ApprovalWorkflow × List ApprovalWorkflowStep × List Invoice :=
  (db.workflows, db.steps, db.invoices)

/-! Concrete fixtures used to evaluate the operations at explicit inputs. -/

/-- Fixture: a pending_approval invoice. -/
def invFix : Invoice :=
  { id := "inv1", entityID := "e1", vendorID := "v1", invoiceNumber := "N1",
    status := "pending_approval", totalAmount := 5000, approvedBy := none,
    approvedAt := none, approvalNotes := none, updatedBy := none,
    updatedAt := 0, lines := [] }

/-- Fixture: a pending step of workflow wf1. -/
def stepFix (sid : String) (n : Int) (assigned : Option String) : ApprovalWorkflowStep :=
  { id := sid, workflowID := "wf1", invoiceID := "inv1", entityID := "e1",
    stepNumber := n, requiredRole := "CLERK", isRequired := true,
    assignedTo := assigned, assignedAt := none, delegatedTo := none,
    delegatedAt := none, delegatedReason := none, status := "pending",
    actedBy := none, actedAt := none, actionNotes := none, dueAt := none,
    updatedAt := 0 }

/-- Fixture: a two-step in_progress workflow at step 1, submitted by sam. -/
def wfFix2 : ApprovalWorkflow :=
  { id := "wf1", invoiceID := "inv1", entityID := "e1", ruleID := none,
    status := "in_progress", totalSteps := 2, currentStep := 1,
    submittedBy := "sam", submittedAt := 0, completedAt := none,
    submissionNotes := none, updatedAt := 0 }

/-- Fixture: store holding the two-step workflow with both steps pending and
unassigned. -/
def dbFix2 : DB :=
  { rules := [], workflows := [wfFix2],
    steps := [stepFix "s1" 1 none, stepFix "s2" 2 none],
    invoices := [invFix], audit := [], nextID := 0 }

/-- Fixture: same store but step 1 is assigned to alice. -/
def dbFixAssigned : DB :=
  { rules := [], workflows := [wfFix2],
    steps := [stepFix "s1" 1 (some "alice"), stepFix "s2" 2 none],
    invoices := [invFix], audit := [], nextID := 0 }

/-- Fixture: the two-step workflow advanced to its final step. -/
def wfFix2b : ApprovalWorkflow := { wfFix2 with currentStep := 2 }

/-- Fixture: store where step 1 is approved and the workflow sits at step 2. -/
def dbFix2b : DB :=
  { rules := [], workflows := [wfFix2b],
    steps := [{ stepFix "s1" 1 none with status := "approved" }, stepFix "s2" 2 none],
    invoices := [invFix], audit := [], nextID := 0 }

/-- Fixture: an active amount_based rule with bounds 1000 and 5000. -/
def amountRuleFix : ApprovalRule :=
  { id := "r5", entityID := "e1", ruleName := "band", ruleType := "amount_based",
    isActive := true, minAmount := some 1000, maxAmount := some 5000,
    vendorID := none, department := none,
    approvalSteps := [⟨1, "CLERK", true⟩], priority := 1 }

/-- Fixture: an active amount_based rule with an empty step-template list. -/
def emptyStepsRuleFix : ApprovalRule :=
  { id := "r0", entityID := "e1", ruleName := "empty", ruleType := "amount_based",
    isActive := true, minAmount := none, maxAmount := none,
    vendorID := none, department := none, approvalSteps := [], priority := 3 }

/-- Fixture: an identity resolver that is unavailable. -/
def identDown : IdentityResolver := fun _ _ => .error "identity service unavailable"

/-- Fixture: an always-matching active amount_based rule with priority 1. -/
def ruleLoFix : ApprovalRule :=
  { id := "rLo", entityID := "e1", ruleName := "low", ruleType := "amount_based",
    isActive := true, minAmount := none, maxAmount := none,
    vendorID := none, department := none,
    approvalSteps := [⟨1, "CLERK", true⟩], priority := 1 }

/-- Fixture: an always-matching active amount_based rule with priority 2. -/
def ruleHiFix : ApprovalRule :=
  { id := "rHi", entityID := "e1", ruleName := "high", ruleType := "amount_based",
    isActive := true, minAmount := none, maxAmount := none,
    vendorID := none, department := none,
    approvalSteps := [⟨1, "CFO", true⟩, ⟨2, "CEO", true⟩], priority := 2 }

/-- Fixture: store holding both rules, higher priority value listed first. -/
def dbRulesFix : DB :=
  { rules := [ruleHiFix, ruleLoFix], workflows := [], steps := [],
    invoices := [], audit := [], nextID := 0 }

/-- Fixture: an always-matching active rule whose single step template carries
step number 2. -/
def ruleStep2Fix : ApprovalRule :=
  { id := "r2", entityID := "e1", ruleName := "two", ruleType := "amount_based",
    isActive := true, minAmount := none, maxAmount := none,
    vendorID := none, department := none,
    approvalSteps := [⟨2, "CLERK", true⟩], priority := 1 }

/-- Fixture: store holding only that rule. -/
def dbRuleStep2Fix : DB :=
  { rules := [ruleStep2Fix], workflows := [], steps := [],
    invoices := [], audit := [], nextID := 0 }

/-! Claim theorems. -/

/-- C5: for every amount_based rule and every amount, the rule matches exactly
when min_amount is at most the amount whenever min_amount is set, and the
amount is strictly below max_amount whenever max_amount is set (lower bound
inclusive, upper bound exclusive). -/
theorem C5_amount_rule_bounds (rule : ApprovalRule) (amount : Int)
    (vendorID department : Option String)
    (htype : rule.ruleType = "amount_based") :
    ruleMatches rule amount vendorID department = true ↔
      ((∀ minA, rule.minAmount = some minA → minA ≤ amount) ∧
       (∀ maxA, rule.maxAmount = some maxA → amount < maxA)) := by
  unfold ruleMatches
  rw [htype]
  cases hmin : rule.minAmount <;> cases hmax : rule.maxAmount <;> simp_all

/-- Witness for C5: the rule with min 1000 and max 5000 matches 1000 and 4999
but neither 5000 nor 999. -/
theorem C5_witness :
    ruleMatches amountRuleFix 1000 none none = true ∧
    ruleMatches amountRuleFix 4999 none none = true ∧
    ruleMatches amountRuleFix 5000 none none = false ∧
    ruleMatches amountRuleFix 999 none none = false := by
  refine ⟨(C5_amount_rule_bounds amountRuleFix 1000 none none rfl).mpr ?_,
          (C5_amount_rule_bounds amountRuleFix 4999 none none rfl).mpr ?_, ?_, ?_⟩
  · exact ⟨fun m hm => by simp [amountRuleFix] at hm; omega,
           fun m hm => by simp [amountRuleFix] at hm; omega⟩
  · exact ⟨fun m hm => by simp [amountRuleFix] at hm; omega,
           fun m hm => by simp [amountRuleFix] at hm; omega⟩
  · cases h : ruleMatches amountRuleFix 5000 none none with
    | false => rfl
    | true =>
      obtain ⟨-, hmax⟩ := (C5_amount_rule_bounds amountRuleFix 5000 none none rfl).mp h
      have := hmax 5000 rfl
      omega
  · cases h : ruleMatches amountRuleFix 999 none none with
    | false => rfl
    | true =>
      obtain ⟨hmin, -⟩ := (C5_amount_rule_bounds amountRuleFix 999 none none rfl).mp h
      have := hmin 1000 rfl
      omega

/-- C10: resolveStepDefs returns the rule's own step templates exactly when
the rule is present with a non-empty list, and the one-element default step
(step 1, FINANCE_MANAGER, required) otherwise; the result is never empty. -/
theorem C10_default_step_fallback (rule : Option ApprovalRule) :
    resolveStepDefs rule ≠ [] ∧
    (∀ r, rule = some r → r.approvalSteps ≠ [] →
      resolveStepDefs rule = r.approvalSteps) ∧
    (rule = none → resolveStepDefs rule = [⟨1, defaultSingleStepRole, true⟩]) ∧
    (∀ r, rule = some r → r.approvalSteps = [] →
      resolveStepDefs rule = [⟨1, defaultSingleStepRole, true⟩]) := by
  unfold resolveStepDefs
  cases rule with
  | none => simp
  | some r =>
    cases hr : r.approvalSteps with
    | nil => simp [hr]
    | cons a l => simp [hr]

/-- Witness for C10: a rule with templates keeps them, no rule and a rule with
an empty template list both fall back to the single default step. -/
theorem C10_witness :
    resolveStepDefs (some amountRuleFix) = amountRuleFix.approvalSteps ∧
    resolveStepDefs none = [⟨1, defaultSingleStepRole, true⟩] ∧
    resolveStepDefs (some emptyStepsRuleFix) = [⟨1, defaultSingleStepRole, true⟩] :=
  ⟨(C10_default_step_fallback (some amountRuleFix)).2.1 amountRuleFix rfl
      (by simp [amountRuleFix]),
   (C10_default_step_fallback none).2.2.1 rfl,
   (C10_default_step_fallback (some emptyStepsRuleFix)).2.2.2 emptyStepsRuleFix rfl rfl⟩

/-- C1: at the concrete store dbFix2 (two-step workflow, current_step 1, both
steps pending), requesting approval of step 2 does NOT fail as a Conflict: the
operation succeeds, reports the workflow complete, approves step 2 and the
invoice while step 1 is still pending — ApproveStep never compares the
requested stepNumber with workflow.current_step, so the claimed ordering
guarantee is not enforced. -/
theorem C1_out_of_order_approval_succeeds :
    (ApproveStep true dbFix2 5 "inv1" "wf1" 2 "alice" none).map
        (fun r => r.1) = .ok true ∧
    (ApproveStep true dbFix2 5 "inv1" "wf1" 2 "alice" none).map
        (fun r => ((findStepById r.2 "s1").map (fun s => s.status),
                   (findStepById r.2 "s2").map (fun s => s.status),
                   (findWorkflow r.2 "wf1").map (fun w => (w.status, w.currentStep)),
                   (findInvoice r.2 "inv1" "e1").map (fun i => i.status))) =
      .ok (some "pending", some "approved", some ("approved", 1), some "approved") :=
  ⟨rfl, rfl⟩

/-- Counterexample for C2: at the concrete store dbFixAssigned, alice (the
assigned approver of step 1) delegates to bob; afterwards the step is
delegated with delegated_to bob, yet assertCanAct still succeeds for alice,
the original assignee, because delegation does not clear assigned_to — the
claim that authorization fails for the original assignee is false. -/
theorem C2_counterexample :
    (DelegateStep true dbFixAssigned 5 "wf1" 1 "alice" "bob" "vacation").map
        (fun db => (findStepById db "s1").map
          (fun s => (s.status, s.delegatedTo,
                     assertCanAct s "alice", assertCanAct s "bob"))) =
      .ok (some ("delegated", some "bob", Except.ok (), Except.ok ())) ∧
    ("alice" : String) ≠ "bob" :=
  ⟨rfl, by decide⟩

/-- find? commutes with an UPDATE row function that keeps the searched-for
predicate stable and leaves non-matching rows untouched. -/
theorem find?_map_eq {α : Type} (p : α → Bool) (f : α → α)
    (hmatch : ∀ x, p (f x) = p x) (l : List α) :
    (l.map f).find? p = (l.find? p).map f := by
  induction l with
  | nil => rfl
  | cons a t ih =>
    cases hp : p a
    · have hfa : p (f a) = false := by rw [hmatch]; exact hp
      rw [List.map_cons, List.find?_cons_of_neg _ (by simp [hfa]),
          List.find?_cons_of_neg _ (by simp [hp])]
      exact ih
    · have hfa : p (f a) = true := by rw [hmatch]; exact hp
      rw [List.map_cons, List.find?_cons_of_pos _ hfa,
          List.find?_cons_of_pos _ hp]
      rfl

/-- Looking a step up by id after mapping an id-preserving row function over a
store whose step ids are unique finds the image of that step. -/
theorem find?_stepId_map (l : List ApprovalWorkflowStep)
    (hnd : (l.map (fun s => s.id)).Nodup) {st : ApprovalWorkflowStep}
    (hmem : st ∈ l) (f : ApprovalWorkflowStep → ApprovalWorkflowStep)
    (hpres : ∀ x, (f x).id = x.id) :
    (l.map f).find? (fun x => x.id == st.id) = some (f st) := by
  induction l with
  | nil => cases hmem
  | cons a t ih =>
    simp only [List.map_cons, List.nodup_cons] at hnd
    rcases List.mem_cons.mp hmem with rfl | hmt
    · rw [List.map_cons, List.find?_cons_of_pos _ (by simp [hpres])]
    · have hne : a.id ≠ st.id := by
        intro h
        exact hnd.1 (h ▸ List.mem_map_of_mem (fun s => s.id) hmt)
      rw [List.map_cons, List.find?_cons_of_neg _ (by simp [hpres, hne])]
      exact ih hnd.2 hmt

/-- In a store with unique step ids, looking a known step up by its own id
finds it. -/
theorem find?_stepId_self (l : List ApprovalWorkflowStep)
    (hnd : (l.map (fun s => s.id)).Nodup) {st : ApprovalWorkflowStep}
    (hmem : st ∈ l) :
    l.find? (fun x => x.id == st.id) = some st := by
  have h := find?_stepId_map l hnd hmem (fun x => x) (fun _ => rfl)
  simpa using h

/-- A found workflow makes GetByID succeed. -/
theorem workflowGetByID_ok {db : DB} {id : String} {wf : ApprovalWorkflow}
    (h : findWorkflow db id = some wf) : workflowGetByID db id = .ok wf := by
  unfold workflowGetByID
  rw [h]

/-- A found step makes GetCurrentStep succeed. -/
theorem stepsGetCurrentStep_ok {db : DB} {wid : String} {n : Int}
    {st : ApprovalWorkflowStep} (h : findStepAt db wid n = some st) :
    stepsGetCurrentStep db wid n = .ok st := by
  unfold stepsGetCurrentStep
  rw [h]

/-- C2 (amended): after DelegateStep succeeds (actor authorized, non-empty
reason, step pending), the step's status is delegated — no longer pending —
and delegated_to records the delegatee; a subsequent assertCanAct on the
updated step succeeds for the delegatee AND still succeeds for the original
assignee, because the repository update leaves assigned_to in place. -/
theorem C2_delegation_effects
    (db : DB) (now : Nat) (workflowID : String) (stepNumber : Int)
    (delegatedBy delegatedTo reason : String) (step : ApprovalWorkflowStep)
    (hstep : findStepAt db workflowID stepNumber = some step)
    (hnd : (db.steps.map (fun s => s.id)).Nodup)
    (hcan : assertCanAct step delegatedBy = .ok ())
    (hreason : reason ≠ "")
    (hpending : step.status = "pending") :
    ∃ db1 st1,
      DelegateStep true db now workflowID stepNumber delegatedBy delegatedTo reason
        = .ok db1 ∧
      findStepById db1 step.id = some st1 ∧
      st1.status = "delegated" ∧
      st1.delegatedTo = some delegatedTo ∧
      st1.assignedTo = step.assignedTo ∧
      assertCanAct st1 delegatedTo = .ok () ∧
      (∀ a, step.assignedTo = some a → assertCanAct st1 a = .ok ()) := by
  have hmem : step ∈ db.steps := List.mem_of_find?_eq_some hstep
  have hany : db.steps.any (fun st => st.id == step.id && st.status == "pending") = true :=
    List.any_eq_true.mpr ⟨step, hmem, by simp [hpending]⟩
  simp only [DelegateStep, stepsGetCurrentStep_ok hstep, hcan,
    if_neg hreason, stepsDelegateStep, hany, if_true]
  have hfind :
      ((db.steps.map (fun st =>
          if st.id == step.id && st.status == "pending" then
            { st with status := "delegated", delegatedTo := some delegatedTo,
                      delegatedAt := some now, delegatedReason := some reason,
                      updatedAt := now }
          else st)).find? (fun x => x.id == step.id)) =
        some { step with status := "delegated", delegatedTo := some delegatedTo,
                         delegatedAt := some now, delegatedReason := some reason,
                         updatedAt := now } := by
    have h := find?_stepId_map db.steps hnd hmem
      (fun st =>
        if st.id == step.id && st.status == "pending" then
          { st with status := "delegated", delegatedTo := some delegatedTo,
                    delegatedAt := some now, delegatedReason := some reason,
                    updatedAt := now }
        else st)
      (by intro x; dsimp only; split <;> rfl)
    rw [h]
    simp [hpending]
  refine ⟨_,
    { step with status := "delegated", delegatedTo := some delegatedTo,
                delegatedAt := some now, delegatedReason := some reason,
                updatedAt := now },
    rfl, ?_, rfl, rfl, rfl, ?_, ?_⟩
  · simpa [findStepById, appendAudit] using hfind
  · by_cases h : step.assignedTo = some delegatedTo <;> simp [assertCanAct, h]
  · intro a ha
    simp [assertCanAct, ha]

/-- C3: under the approval preconditions (workflow in_progress at this step,
step pending, actor authorized), approving a step below total_steps returns
workflowComplete false and advances current_step by one with the workflow kept
in_progress, while approving the final step returns true, marks the workflow
approved with the completion time stamped, and transitions the invoice to
approved with the actor recorded as approver. -/
theorem C3_sequential_approval
    (db : DB) (now : Nat) (invoiceID workflowID : String) (stepNumber : Int)
    (actedBy : String) (notes : Option String)
    (wf : ApprovalWorkflow) (step : ApprovalWorkflowStep) (inv : Invoice)
    (hwf : findWorkflow db workflowID = some wf)
    (hwfst : wf.status = "in_progress")
    (hstep : findStepAt db workflowID stepNumber = some step)
    (hstepst : step.status = "pending")
    (hcan : assertCanAct step actedBy = .ok ())
    (hcur : wf.currentStep = stepNumber)
    (hnd : (db.steps.map (fun s => s.id)).Nodup)
    (hinv : findInvoice db invoiceID wf.entityID = some inv) :
    (stepNumber < wf.totalSteps →
      ∃ db2,
        ApproveStep true db now invoiceID workflowID stepNumber actedBy notes
          = .ok (false, db2) ∧
        findWorkflow db2 workflowID = some
          { wf with currentStep := wf.currentStep + 1, status := "in_progress",
                    updatedAt := now } ∧
        findStepById db2 step.id = some
          { step with status := "approved", actedBy := some actedBy,
                      actedAt := some now, actionNotes := notes, updatedAt := now }) ∧
    (stepNumber = wf.totalSteps →
      ∃ db2,
        ApproveStep true db now invoiceID workflowID stepNumber actedBy notes
          = .ok (true, db2) ∧
        findWorkflow db2 workflowID = some
          { wf with status := "approved", completedAt := some now, updatedAt := now } ∧
        findStepById db2 step.id = some
          { step with status := "approved", actedBy := some actedBy,
                      actedAt := some now, actionNotes := notes, updatedAt := now } ∧
        findInvoice db2 invoiceID wf.entityID = some
          { inv with status := "approved", approvedBy := some actedBy,
                     approvedAt := some now, approvalNotes := notes,
                     updatedAt := now }) := by
  have hwf0 : db.workflows.find? (fun w => w.id == workflowID) = some wf := hwf
  have hinv0 :
      db.invoices.find? (fun i => i.id == invoiceID && i.entityID == wf.entityID)
        = some inv := hinv
  have hwmem : wf ∈ db.workflows := List.mem_of_find?_eq_some hwf0
  have hsmem : step ∈ db.steps := List.mem_of_find?_eq_some hstep
  have hwfid : (wf.id == workflowID) = true := by
    simpa using List.find?_some hwf0
  have hinvkey : (inv.id == invoiceID && inv.entityID == wf.entityID) = true := by
    simpa [Bool.and_eq_true] using List.find?_some hinv0
  have hanyStep : db.steps.any (fun st => st.id == step.id) = true :=
    List.any_eq_true.mpr ⟨step, hsmem, by simp⟩
  have hanyWf : db.workflows.any (fun w => w.id == workflowID) = true :=
    List.any_eq_true.mpr ⟨wf, hwmem, hwfid⟩
  have hanyInv :
      db.invoices.any (fun i => i.id == invoiceID && i.entityID == wf.entityID) = true :=
    List.any_eq_true.mpr ⟨inv, List.mem_of_find?_eq_some hinv, hinvkey⟩
  have hfindStep : db.steps.find? (fun x => x.id == step.id) = some step :=
    find?_stepId_self db.steps hnd hsmem
  have hstepRw := find?_map_eq (fun x => x.id == step.id)
    (fun st => if st.id == step.id then
        { st with status := "approved", actedBy := some actedBy,
                  actedAt := some now, actionNotes := notes, updatedAt := now }
      else st)
    (by intro x; dsimp only; split <;> rfl) db.steps
  constructor
  · intro hlt
    have hwfRw := find?_map_eq (fun w => w.id == workflowID)
      (fun w => if w.id == workflowID then
          { w with currentStep := stepNumber + 1, status := "in_progress",
                   updatedAt := now }
        else w)
      (by intro x; dsimp only; split <;> rfl) db.workflows
    simp only [ApproveStep, workflowGetByID_ok hwf, stepsGetCurrentStep_ok hstep,
      hwfst, hstepst, hcan, ne_eq, not_true_eq_false, if_false,
      stepsUpdateStepAction, hanyStep, if_true, if_pos hlt,
      workflowAdvanceStep, hanyWf]
    refine ⟨_, rfl, ?_, ?_⟩
    · simp only [findWorkflow, appendAudit, if_true]
      rw [hwfRw, hwf0]
      simp only [Option.map_some']
      rw [if_pos hwfid, hcur]
    · simp only [findStepById, appendAudit, if_true]
      rw [hstepRw, hfindStep]
      simp only [Option.map_some']
      rw [if_pos (beq_self_eq_true step.id)]
  · intro heq
    have hnlt : ¬ stepNumber < wf.totalSteps := by omega
    have hwfRw := find?_map_eq (fun w => w.id == workflowID)
      (fun w => if w.id == workflowID then
          { w with status := "approved", completedAt := some now, updatedAt := now }
        else w)
      (by intro x; dsimp only; split <;> rfl) db.workflows
    have hinvRw := find?_map_eq (fun i => i.id == invoiceID && i.entityID == wf.entityID)
      (fun i => if i.id == invoiceID && i.entityID == wf.entityID then
          { i with status := "approved", approvedBy := some actedBy,
                   approvedAt := some now, approvalNotes := notes, updatedAt := now }
        else i)
      (by intro x; dsimp only; split <;> rfl) db.invoices
    simp only [ApproveStep, workflowGetByID_ok hwf, stepsGetCurrentStep_ok hstep,
      hwfst, hstepst, hcan, ne_eq, not_true_eq_false, if_false,
      stepsUpdateStepAction, hanyStep, if_true, if_neg hnlt,
      workflowUpdateStatus, hanyWf, invoiceApprove, hanyInv]
    refine ⟨_, rfl, ?_, ?_, ?_⟩
    · simp only [findWorkflow, appendAudit, if_true]
      rw [hwfRw, hwf0]
      simp only [Option.map_some']
      rw [if_pos hwfid]
    · simp only [findStepById, appendAudit, if_true]
      rw [hstepRw, hfindStep]
      simp only [Option.map_some']
      rw [if_pos (beq_self_eq_true step.id)]
    · simp only [findInvoice, appendAudit, if_true]
      rw [hinvRw, hinv0]
      simp only [Option.map_some']
      rw [if_pos hinvkey]

/-- Witness for C3: on the concrete two-step workflow, approving step 1
returns false and advances to step 2; on the store already at step 2,
approving step 2 returns true, completes the workflow and approves the
invoice. -/
theorem C3_witness :
    (∃ db2,
      ApproveStep true dbFix2 5 "inv1" "wf1" 1 "alice" none = .ok (false, db2) ∧
      findWorkflow db2 "wf1" = some
        { wfFix2 with currentStep := wfFix2.currentStep + 1,
                      status := "in_progress", updatedAt := 5 } ∧
      findStepById db2 (stepFix "s1" 1 none).id = some
        { stepFix "s1" 1 none with status := "approved", actedBy := some "alice",
                                   actedAt := some 5, actionNotes := none,
                                   updatedAt := 5 }) ∧
    (∃ db2,
      ApproveStep true dbFix2b 5 "inv1" "wf1" 2 "bob" none = .ok (true, db2) ∧
      findWorkflow db2 "wf1" = some
        { wfFix2b with status := "approved", completedAt := some 5, updatedAt := 5 } ∧
      findStepById db2 (stepFix "s2" 2 none).id = some
        { stepFix "s2" 2 none with status := "approved", actedBy := some "bob",
                                   actedAt := some 5, actionNotes := none,
                                   updatedAt := 5 } ∧
      findInvoice db2 "inv1" wfFix2b.entityID = some
        { invFix with status := "approved", approvedBy := some "bob",
                      approvedAt := some 5, approvalNotes := none,
                      updatedAt := 5 }) :=
  ⟨(C3_sequential_approval dbFix2 5 "inv1" "wf1" 1 "alice" none
      wfFix2 (stepFix "s1" 1 none) invFix rfl rfl rfl rfl rfl rfl
      (by decide) rfl).1 (by decide),
   (C3_sequential_approval dbFix2b 5 "inv1" "wf1" 2 "bob" none
      wfFix2b (stepFix "s2" 2 none) invFix rfl rfl rfl rfl rfl rfl
      (by decide) rfl).2 rfl⟩

/-- Witness for C2: alice delegates her assigned step 1 to bob; the step
becomes delegated with delegated_to bob, bob passes the authorization check,
and so does alice, the original assignee. -/
theorem C2_witness :
    ∃ db1 st1,
      DelegateStep true dbFixAssigned 5 "wf1" 1 "alice" "bob" "vacation" = .ok db1 ∧
      findStepById db1 (stepFix "s1" 1 (some "alice")).id = some st1 ∧
      st1.status = "delegated" ∧
      st1.delegatedTo = some "bob" ∧
      st1.assignedTo = (stepFix "s1" 1 (some "alice")).assignedTo ∧
      assertCanAct st1 "bob" = .ok () ∧
      (∀ a, (stepFix "s1" 1 (some "alice")).assignedTo = some a →
        assertCanAct st1 a = .ok ()) :=
  C2_delegation_effects dbFixAssigned 5 "wf1" 1 "alice" "bob" "vacation"
    (stepFix "s1" 1 (some "alice")) rfl (by decide) rfl (by decide) rfl

/-- C7: under the rejection preconditions (workflow in_progress, step pending,
actor authorized), an empty reason fails as InvalidInput with nothing written,
while a non-empty reason rejects the step, terminates the workflow as rejected
with the completion time stamped, reverts the invoice to draft, and appends an
audit entry with action rejected carrying the reason in its metadata. -/
theorem C7_reject_workflow
    (db : DB) (now : Nat) (invoiceID workflowID : String) (stepNumber : Int)
    (actedBy reason : String)
    (wf : ApprovalWorkflow) (step : ApprovalWorkflowStep) (inv : Invoice)
    (hwf : findWorkflow db workflowID = some wf)
    (hwfst : wf.status = "in_progress")
    (hstep : findStepAt db workflowID stepNumber = some step)
    (hstepst : step.status = "pending")
    (hcan : assertCanAct step actedBy = .ok ())
    (hnd : (db.steps.map (fun s => s.id)).Nodup)
    (hinv : findInvoice db invoiceID wf.entityID = some inv) :
    (reason = "" →
      RejectWorkflow true db now invoiceID workflowID stepNumber actedBy reason
        = .error ⟨.invalidInput, "rejection reason is required"⟩) ∧
    (reason ≠ "" →
      ∃ db3,
        RejectWorkflow true db now invoiceID workflowID stepNumber actedBy reason
          = .ok db3 ∧
        findStepById db3 step.id = some
          { step with status := "rejected", actedBy := some actedBy,
                      actedAt := some now, actionNotes := some reason,
                      updatedAt := now } ∧
        findWorkflow db3 workflowID = some
          { wf with status := "rejected", completedAt := some now, updatedAt := now } ∧
        findInvoice db3 invoiceID wf.entityID = some
          { inv with status := "draft", updatedBy := some actedBy, updatedAt := now } ∧
        ∃ entry, db3.audit = db.audit ++ [entry] ∧
          entry.action = "rejected" ∧
          ("reason", MetaVal.str reason) ∈ entry.metadata) := by
  have hwf0 : db.workflows.find? (fun w => w.id == workflowID) = some wf := hwf
  have hinv0 :
      db.invoices.find? (fun i => i.id == invoiceID && i.entityID == wf.entityID)
        = some inv := hinv
  have hsmem : step ∈ db.steps := List.mem_of_find?_eq_some hstep
  have hwfid : (wf.id == workflowID) = true := by
    simpa using List.find?_some hwf0
  have hinvkey : (inv.id == invoiceID && inv.entityID == wf.entityID) = true := by
    simpa [Bool.and_eq_true] using List.find?_some hinv0
  have hanyStep : db.steps.any (fun st => st.id == step.id) = true :=
    List.any_eq_true.mpr ⟨step, hsmem, by simp⟩
  have hanyWf : db.workflows.any (fun w => w.id == workflowID) = true :=
    List.any_eq_true.mpr ⟨wf, List.mem_of_find?_eq_some hwf0, hwfid⟩
  have hanyInv :
      db.invoices.any (fun i => i.id == invoiceID && i.entityID == wf.entityID) = true :=
    List.any_eq_true.mpr ⟨inv, List.mem_of_find?_eq_some hinv0, hinvkey⟩
  have hfindStep : db.steps.find? (fun x => x.id == step.id) = some step :=
    find?_stepId_self db.steps hnd hsmem
  constructor
  · intro hre
    subst hre
    simp only [RejectWorkflow, workflowGetByID_ok hwf, stepsGetCurrentStep_ok hstep,
      hwfst, hstepst, hcan, ne_eq, not_true_eq_false, if_false, if_pos rfl]
    exact if_pos trivial
  · intro hre
    have hstepRw := find?_map_eq (fun x => x.id == step.id)
      (fun st => if st.id == step.id then
          { st with status := "rejected", actedBy := some actedBy,
                    actedAt := some now, actionNotes := some reason, updatedAt := now }
        else st)
      (by intro x; dsimp only; split <;> rfl) db.steps
    have hwfRw := find?_map_eq (fun w => w.id == workflowID)
      (fun w => if w.id == workflowID then
          { w with status := "rejected", completedAt := some now, updatedAt := now }
        else w)
      (by intro x; dsimp only; split <;> rfl) db.workflows
    have hinvRw := find?_map_eq (fun i => i.id == invoiceID && i.entityID == wf.entityID)
      (fun i => if i.id == invoiceID && i.entityID == wf.entityID then
          { i with status := "draft", updatedBy := some actedBy, updatedAt := now }
        else i)
      (by intro x; dsimp only; split <;> rfl) db.invoices
    simp only [RejectWorkflow, workflowGetByID_ok hwf, stepsGetCurrentStep_ok hstep,
      hwfst, hstepst, hcan, ne_eq, not_true_eq_false, if_false, if_neg hre,
      stepsUpdateStepAction, hanyStep, if_true,
      workflowUpdateStatus, hanyWf, invoiceUpdateStatus, hanyInv]
    refine ⟨_, rfl, ?_, ?_, ?_, ?_⟩
    · simp only [findStepById, appendAudit, if_true]
      rw [hstepRw, hfindStep]
      simp only [Option.map_some']
      rw [if_pos (beq_self_eq_true step.id)]
    · simp only [findWorkflow, appendAudit, if_true]
      rw [hwfRw, hwf0]
      simp only [Option.map_some']
      rw [if_pos hwfid]
    · simp only [findInvoice, appendAudit, if_true]
      rw [hinvRw, hinv0]
      simp only [Option.map_some']
      rw [if_pos hinvkey]
    · refine ⟨
        { id := freshId db.nextID, invoiceID := invoiceID,
          workflowID := some workflowID, stepID := some step.id,
          entityID := wf.entityID, action := "rejected", performedBy := actedBy,
          performedAt := now, invoiceStatusBefore := some "pending_approval",
          invoiceStatusAfter := some "draft",
          metadata := [("reason", MetaVal.str reason),
                       ("step_number", MetaVal.int stepNumber)] },
        ?_, rfl, ?_⟩
      · simp [appendAudit]
      · simp

/-- C8: RecallWorkflow by anyone other than the original submitter fails as
Unauthorized before any write; invoked by the submitter on a pending or
in_progress workflow it marks every still-pending step of the workflow
recalled, terminates the workflow as recalled, and reverts the invoice to
draft. -/
theorem C8_recall_workflow
    (db : DB) (now : Nat) (invoiceID workflowID recalledBy : String)
    (wf : ApprovalWorkflow) (inv : Invoice)
    (hwf : findWorkflow db workflowID = some wf) :
    (wf.submittedBy ≠ recalledBy →
      RecallWorkflow true db now invoiceID workflowID recalledBy
        = .error ⟨.unauthorized, "only the submitter can recall the workflow"⟩) ∧
    (wf.submittedBy = recalledBy →
      (wf.status = "in_progress" ∨ wf.status = "pending") →
      findInvoice db invoiceID wf.entityID = some inv →
      ∃ db3,
        RecallWorkflow true db now invoiceID workflowID recalledBy = .ok db3 ∧
        db3.steps = db.steps.map (fun st =>
          if st.workflowID == workflowID && st.status == "pending" then
            { st with status := "recalled", updatedAt := now }
          else st) ∧
        findWorkflow db3 workflowID = some
          { wf with status := "recalled", completedAt := some now, updatedAt := now } ∧
        findInvoice db3 invoiceID wf.entityID = some
          { inv with status := "draft", updatedBy := some recalledBy,
                     updatedAt := now }) := by
  have hwf0 : db.workflows.find? (fun w => w.id == workflowID) = some wf := hwf
  have hwfid : (wf.id == workflowID) = true := by
    simpa using List.find?_some hwf0
  have hanyWf : db.workflows.any (fun w => w.id == workflowID) = true :=
    List.any_eq_true.mpr ⟨wf, List.mem_of_find?_eq_some hwf0, hwfid⟩
  constructor
  · intro hne
    simp only [RecallWorkflow, workflowGetByID_ok hwf, if_pos hne]
  · intro hsub hstatus hinv
    have hinv0 :
        db.invoices.find? (fun i => i.id == invoiceID && i.entityID == wf.entityID)
          = some inv := hinv
    have hinvkey : (inv.id == invoiceID && inv.entityID == wf.entityID) = true := by
      simpa [Bool.and_eq_true] using List.find?_some hinv0
    have hanyInv :
        db.invoices.any (fun i => i.id == invoiceID && i.entityID == wf.entityID)
          = true :=
      List.any_eq_true.mpr ⟨inv, List.mem_of_find?_eq_some hinv0, hinvkey⟩
    have hnotne : ¬ wf.submittedBy ≠ recalledBy := not_not_intro hsub
    have hstok : ¬ (wf.status ≠ "in_progress" ∧ wf.status ≠ "pending") := by
      rcases hstatus with h | h <;> simp [h]
    have hwfRw := find?_map_eq (fun w => w.id == workflowID)
      (fun w => if w.id == workflowID then
          { w with status := "recalled", completedAt := some now, updatedAt := now }
        else w)
      (by intro x; dsimp only; split <;> rfl) db.workflows
    have hinvRw := find?_map_eq (fun i => i.id == invoiceID && i.entityID == wf.entityID)
      (fun i => if i.id == invoiceID && i.entityID == wf.entityID then
          { i with status := "draft", updatedBy := some recalledBy, updatedAt := now }
        else i)
      (by intro x; dsimp only; split <;> rfl) db.invoices
    simp only [RecallWorkflow, workflowGetByID_ok hwf, if_neg hnotne, if_neg hstok,
      stepsRecallSteps, workflowUpdateStatus, hanyWf, if_true,
      invoiceUpdateStatus, hanyInv]
    refine ⟨_, rfl, ?_, ?_, ?_⟩
    · simp [appendAudit]
    · simp only [findWorkflow, appendAudit, if_true]
      rw [hwfRw, hwf0]
      simp only [Option.map_some']
      rw [if_pos hwfid]
    · simp only [findInvoice, appendAudit, if_true]
      rw [hinvRw, hinv0]
      simp only [Option.map_some']
      rw [if_pos hinvkey]

/-- Witness for C7: on the concrete store, rejecting step 1 with an empty
reason fails as InvalidInput, and rejecting it with reason budget rejects the
step and workflow, reverts the invoice to draft and logs the reason. -/
theorem C7_witness :
    (RejectWorkflow true dbFix2 5 "inv1" "wf1" 1 "alice" ""
      = .error ⟨.invalidInput, "rejection reason is required"⟩) ∧
    (∃ db3,
      RejectWorkflow true dbFix2 5 "inv1" "wf1" 1 "alice" "budget" = .ok db3 ∧
      findStepById db3 (stepFix "s1" 1 none).id = some
        { stepFix "s1" 1 none with status := "rejected", actedBy := some "alice",
                                   actedAt := some 5, actionNotes := some "budget",
                                   updatedAt := 5 } ∧
      findWorkflow db3 "wf1" = some
        { wfFix2 with status := "rejected", completedAt := some 5, updatedAt := 5 } ∧
      findInvoice db3 "inv1" wfFix2.entityID = some
        { invFix with status := "draft", updatedBy := some "alice", updatedAt := 5 } ∧
      ∃ entry, db3.audit = dbFix2.audit ++ [entry] ∧
        entry.action = "rejected" ∧
        ("reason", MetaVal.str "budget") ∈ entry.metadata) :=
  ⟨(C7_reject_workflow dbFix2 5 "inv1" "wf1" 1 "alice" ""
      wfFix2 (stepFix "s1" 1 none) invFix rfl rfl rfl rfl rfl (by decide) rfl).1 rfl,
   (C7_reject_workflow dbFix2 5 "inv1" "wf1" 1 "alice" "budget"
      wfFix2 (stepFix "s1" 1 none) invFix rfl rfl rfl rfl rfl (by decide) rfl).2
     (by decide)⟩

/-- Witness for C8: eve (not the submitter) cannot recall the concrete
workflow; sam (the submitter) recalls it, all pending steps become recalled
and the invoice returns to draft. -/
theorem C8_witness :
    (RecallWorkflow true dbFix2 5 "inv1" "wf1" "eve"
      = .error ⟨.unauthorized, "only the submitter can recall the workflow"⟩) ∧
    (∃ db3,
      RecallWorkflow true dbFix2 5 "inv1" "wf1" "sam" = .ok db3 ∧
      db3.steps = dbFix2.steps.map (fun st =>
        if st.workflowID == "wf1" && st.status == "pending" then
          { st with status := "recalled", updatedAt := 5 }
        else st) ∧
      findWorkflow db3 "wf1" = some
        { wfFix2 with status := "recalled", completedAt := some 5, updatedAt := 5 } ∧
      findInvoice db3 "inv1" wfFix2.entityID = some
        { invFix with status := "draft", updatedBy := some "sam", updatedAt := 5 }) :=
  ⟨(C8_recall_workflow dbFix2 5 "inv1" "wf1" "eve" wfFix2 invFix rfl).1 (by decide),
   (C8_recall_workflow dbFix2 5 "inv1" "wf1" "sam" wfFix2 invFix rfl).2 rfl
     (Or.inl rfl) rfl⟩

/-- On a priority-sorted rule list, find? returns the matching rule whose
priority is strictly below every other matching rule's priority. -/
theorem find?_sorted_min {l : List ApprovalRule} (hs : List.Sorted ruleLE l)
    (p : ApprovalRule → Bool) {r1 : ApprovalRule}
    (hmem : r1 ∈ l) (hp : p r1 = true)
    (hmin : ∀ x ∈ l, p x = true → x = r1 ∨ r1.priority < x.priority) :
    l.find? p = some r1 := by
  induction l with
  | nil => cases hmem
  | cons a t ih =>
    rw [List.sorted_cons] at hs
    rcases List.mem_cons.mp hmem with rfl | hmt
    · rw [List.find?_cons_of_pos _ hp]
    · cases hpa : p a
      · rw [List.find?_cons_of_neg _ (by simp [hpa])]
        exact ih hs.2 hmt (fun x hx hpx => hmin x (List.mem_cons_of_mem a hx) hpx)
      · rcases hmin a (List.mem_cons_self a t) hpa with rfl | hlt
        · rw [List.find?_cons_of_pos _ hpa]
        · have hle := hs.1 r1 hmt
          unfold ruleLE at hle
          rcases hle with h | ⟨h, -⟩
          · exact (lt_asymm h hlt).elim
          · exact absurd (h ▸ hlt) (lt_irrefl _)

/-- C6: when an active matching rule has strictly lower priority than every
other active matching rule of the entity (in particular when exactly two rules
with priorities p1 < p2 match), FindMatchingRule returns that rule; when no
active rule of the entity matches, it returns none with no error. -/
theorem C6_priority_first_match
    (db : DB) (entityID : String) (amount : Int)
    (vendorID department : Option String) :
    (∀ r1 : ApprovalRule, r1 ∈ db.rules → r1.entityID = entityID →
      r1.isActive = true →
      ruleMatches r1 amount vendorID department = true →
      (∀ r ∈ db.rules, r.entityID = entityID → r.isActive = true →
        ruleMatches r amount vendorID department = true →
        r = r1 ∨ r1.priority < r.priority) →
      FindMatchingRule db entityID amount vendorID department = .ok (some r1)) ∧
    ((∀ r ∈ db.rules, r.entityID = entityID → r.isActive = true →
        ruleMatches r amount vendorID department = false) →
      FindMatchingRule db entityID amount vendorID department = .ok none) := by
  constructor
  · intro r1 hmem hent hact hmatch hmin
    unfold FindMatchingRule listRules
    have hfmem : r1 ∈ db.rules.filter
        (fun r => r.entityID == entityID && (!true || r.isActive)) :=
      List.mem_filter.mpr ⟨hmem, by simp [hent, hact]⟩
    have hsmem : r1 ∈ List.insertionSort ruleLE
        (db.rules.filter (fun r => r.entityID == entityID && (!true || r.isActive))) :=
      (List.perm_insertionSort ruleLE _).mem_iff.mpr hfmem
    have hfind := find?_sorted_min
      (List.sorted_insertionSort ruleLE
        (db.rules.filter (fun r => r.entityID == entityID && (!true || r.isActive))))
      (fun r => ruleMatches r amount vendorID department) hsmem hmatch ?_
    · rw [hfind]
    · intro x hx hpx
      have hxf : x ∈ db.rules.filter
          (fun r => r.entityID == entityID && (!true || r.isActive)) :=
        (List.perm_insertionSort ruleLE _).mem_iff.mp hx
      obtain ⟨hxmem, hxpred⟩ := List.mem_filter.mp hxf
      simp only [Bool.not_true, Bool.false_or, Bool.and_eq_true, beq_iff_eq] at hxpred
      exact hmin x hxmem hxpred.1 hxpred.2 hpx
  · intro hnone
    unfold FindMatchingRule listRules
    have hfind : (List.insertionSort ruleLE
        (db.rules.filter (fun r => r.entityID == entityID && (!true || r.isActive)))).find?
          (fun r => ruleMatches r amount vendorID department) = none := by
      apply List.find?_eq_none.mpr
      intro x hx
      have hxf : x ∈ db.rules.filter
          (fun r => r.entityID == entityID && (!true || r.isActive)) :=
        (List.perm_insertionSort ruleLE _).mem_iff.mp hx
      obtain ⟨hxmem, hxpred⟩ := List.mem_filter.mp hxf
      simp only [Bool.not_true, Bool.false_or, Bool.and_eq_true, beq_iff_eq] at hxpred
      simp [hnone x hxmem hxpred.1 hxpred.2]
    rw [hfind]

/-- Witness for C6: with active always-matching rules of priorities 2 and 1
stored in that order, the priority-1 rule is returned; with no rules at all,
the result is none with no error. -/
theorem C6_witness :
    FindMatchingRule dbRulesFix "e1" 100 none none = .ok (some ruleLoFix) ∧
    FindMatchingRule dbFix2 "e1" 100 none none = .ok none :=
  ⟨(C6_priority_first_match dbRulesFix "e1" 100 none none).1 ruleLoFix
      (by decide) rfl rfl rfl (by decide),
   (C6_priority_first_match dbFix2 "e1" 100 none none).2 (by decide)⟩

/-- Appending an audit entry, successfully or not, never changes workflows,
steps or invoices. -/
theorem primaryOf_appendAudit (b : Bool) (db : DB) (e : ApprovalAuditEntry)
    (n : Nat) : primaryOf (appendAudit b db e n) = primaryOf db := by
  cases b <;> rfl

/-- C9: for each approval operation, a failing audit-log append changes
nothing observable: success or failure, the returned value, and the resulting
workflows, steps and invoices are identical to a run whose audit append
succeeds — the audit failure is never propagated to the caller. -/
theorem C9_audit_failure_never_propagates
    (auditOK : Bool) (db : DB) (now : Nat)
    (invoiceID workflowID recalledBy : String) (stepNumber : Int)
    (actedBy delegatedBy delegatedTo : String) (notes : Option String)
    (reason : String) :
    ((ApproveStep auditOK db now invoiceID workflowID stepNumber actedBy notes).map
        (fun r => (r.1, primaryOf r.2))
      = (ApproveStep true db now invoiceID workflowID stepNumber actedBy notes).map
        (fun r => (r.1, primaryOf r.2))) ∧
    ((RejectWorkflow auditOK db now invoiceID workflowID stepNumber actedBy reason).map
        primaryOf
      = (RejectWorkflow true db now invoiceID workflowID stepNumber actedBy reason).map
        primaryOf) ∧
    ((RecallWorkflow auditOK db now invoiceID workflowID recalledBy).map primaryOf
      = (RecallWorkflow true db now invoiceID workflowID recalledBy).map primaryOf) ∧
    ((DelegateStep auditOK db now workflowID stepNumber delegatedBy delegatedTo
        reason).map primaryOf
      = (DelegateStep true db now workflowID stepNumber delegatedBy delegatedTo
        reason).map primaryOf) := by
  refine ⟨?_, ?_, ?_, ?_⟩
  · unfold ApproveStep
    repeat' split
    all_goals first
      | rfl
      | simp [Except.map, primaryOf_appendAudit]
  · unfold RejectWorkflow
    repeat' split
    all_goals first
      | rfl
      | simp [Except.map, primaryOf_appendAudit]
  · unfold RecallWorkflow
    cases hw : workflowGetByID db workflowID with
    | error e => rfl
    | ok wf =>
      by_cases h1 : wf.submittedBy ≠ recalledBy
      · simp [h1]
      · simp only [if_neg h1]
        by_cases h2 : wf.status ≠ "in_progress" ∧ wf.status ≠ "pending"
        · simp [h2]
        · simp only [if_neg h2]
          cases workflowUpdateStatus (stepsRecallSteps db workflowID now)
              workflowID "recalled" (some now) now with
          | error e => rfl
          | ok db2 =>
            dsimp only
            cases invoiceUpdateStatus db2 invoiceID wf.entityID "draft"
                (some recalledBy) now with
            | error e => rfl
            | ok db3 => simp [Except.map, primaryOf_appendAudit]
  · unfold DelegateStep
    repeat' split
    all_goals first
      | rfl
      | simp [Except.map, primaryOf_appendAudit]

/-- Mapping a projection over mapIdx reduces to mapping it over the list when
the indexed function preserves the projection. -/
theorem mapIdx_map_proj {α β : Type} (proj : α → β) (f : Nat → α → α)
    (l : List α) (hp : ∀ i a, proj (f i a) = proj a) :
    (l.mapIdx f).map proj = l.map proj := by
  induction l generalizing f with
  | nil => rfl
  | cons a t ih =>
    rw [List.mapIdx_cons, List.map_cons, List.map_cons, hp 0 a,
      ih (fun i => f (i + 1)) (fun i a => hp (i + 1) a)]

/-- Mapping a projection over mapIdx yields a constant list when the indexed
function fixes the projection to a constant. -/
theorem mapIdx_map_const {α β : Type} (proj : α → β) (c : β) (f : Nat → α → α)
    (l : List α) (hp : ∀ i a, proj (f i a) = c) :
    (l.mapIdx f).map proj = List.replicate l.length c := by
  induction l generalizing f with
  | nil => rfl
  | cons a t ih =>
    rw [List.mapIdx_cons, List.map_cons, hp 0 a, List.length_cons,
      List.replicate_succ, ih (fun i => f (i + 1)) (fun i a => hp (i + 1) a)]

/-- buildSteps copies each definition's step number into the built step. -/
theorem buildSteps_stepNumbers (ident : IdentityResolver) (now : Nat)
    (entityID : String) (defs : List ApprovalRuleStep) :
    (buildSteps ident now entityID defs).map (fun s => s.stepNumber)
      = defs.map (fun d => d.step) := by
  unfold buildSteps
  rw [List.map_map]
  apply List.map_congr_left
  intro d _
  dsimp only [Function.comp]
  cases ident entityID d.role with
  | error e => rfl
  | ok users => cases users <;> rfl

/-- buildSteps yields one step per definition. -/
theorem buildSteps_length (ident : IdentityResolver) (now : Nat)
    (entityID : String) (defs : List ApprovalRuleStep) :
    (buildSteps ident now entityID defs).length = defs.length := by
  unfold buildSteps
  simp

/-- Assigning row ids and workflow references does not touch step numbers. -/
theorem assignStepRows_stepNumbers (wfRow : ApprovalWorkflow) (nextID now : Nat)
    (steps : List ApprovalWorkflowStep) :
    (assignStepRows wfRow nextID now steps).map (fun s => s.stepNumber)
      = steps.map (fun s => s.stepNumber) := by
  unfold assignStepRows
  apply mapIdx_map_proj
  intro i a
  rfl

/-- Assigning row ids yields one row per step. -/
theorem assignStepRows_length (wfRow : ApprovalWorkflow) (nextID now : Nat)
    (steps : List ApprovalWorkflowStep) :
    (assignStepRows wfRow nextID now steps).length = steps.length := by
  unfold assignStepRows
  exact List.length_mapIdx

/-- Every inserted step row carries the new workflow's id. -/
theorem assignStepRows_workflowID (wfRow : ApprovalWorkflow) (nextID now : Nat)
    (steps : List ApprovalWorkflowStep) {st : ApprovalWorkflowStep}
    (hmem : st ∈ assignStepRows wfRow nextID now steps) :
    st.workflowID = wfRow.id := by
  have hmap : (assignStepRows wfRow nextID now steps).map (fun s => s.workflowID)
      = List.replicate steps.length wfRow.id := by
    unfold assignStepRows
    apply mapIdx_map_const
    intro i a
    rfl
  have hin : st.workflowID ∈ (assignStepRows wfRow nextID now steps).map
      (fun s => s.workflowID) := List.mem_map_of_mem _ hmem
  rw [hmap] at hin
  exact List.eq_of_mem_replicate hin

/-- Step rows numbered 1..N satisfy the table constraints. -/
theorem stepRowsInsertable_of_range (rows : List ApprovalWorkflowStep)
    (h : rows.map (fun s => s.stepNumber)
      = (List.range' 1 rows.length).map Int.ofNat) :
    stepRowsInsertable rows = true := by
  unfold stepRowsInsertable
  rw [Bool.and_eq_true]
  constructor
  · rw [List.all_eq_true]
    intro st hmem
    have hin : st.stepNumber ∈ rows.map (fun s => s.stepNumber) :=
      List.mem_map_of_mem _ hmem
    rw [h] at hin
    obtain ⟨n, hn, hcast⟩ := List.mem_map.mp hin
    rw [List.mem_range'_1] at hn
    rw [decide_eq_true_eq, ← hcast]
    exact Int.ofNat_le.mpr hn.1
  · rw [decide_eq_true_eq, h]
    exact (List.nodup_range' 1 rows.length).map (fun a b hab => Int.ofNat.inj hab)

/-- Counterexample for C4: with a matched rule whose single step template
carries step number 2, CreateApprovalWorkflow succeeds and persists exactly
one step whose step_number is 2, not 1 — the created step numbers are copied
from the definitions, not forced to 1..N. -/
theorem C4_counterexample :
    (CreateApprovalWorkflow identDown dbRuleStep2Fix 7 invFix "sam").map
        (fun r => (r.1.totalSteps, r.1.currentStep,
                   (r.2.1.map (fun s => s.stepNumber), r.2.2.steps.map (fun s => s.stepNumber))))
      = .ok (1, 1, ([2], [2])) := rfl

/-- Step rows numbered 1..N are already in step_number order. -/
theorem sorted_of_range_numbers (rows : List ApprovalWorkflowStep)
    (h : rows.map (fun s => s.stepNumber)
      = (List.range' 1 rows.length).map Int.ofNat) :
    List.Sorted stepNumberLE rows := by
  have hp : List.Pairwise (fun a b : Int => a ≤ b)
      (rows.map (fun s => s.stepNumber)) := by
    rw [h, List.pairwise_map]
    exact (List.pairwise_lt_range' 1 rows.length).imp
      (fun hab => Int.ofNat_le.mpr (le_of_lt hab))
  rw [List.pairwise_map] at hp
  exact hp

/-- Reading a workflow's steps back returns exactly the rows inserted for it,
in their stored order, when no other row references the workflow and the rows
are already sorted by step_number. -/
theorem stepsGetByWorkflowID_roundtrip (db : DB) (wfRow : ApprovalWorkflow)
    (rows : List ApprovalWorkflowStep) (dbOut : DB)
    (hsteps : dbOut.steps = db.steps ++ rows)
    (hold : ∀ st ∈ db.steps, st.workflowID ≠ wfRow.id)
    (hnew : ∀ st ∈ rows, st.workflowID = wfRow.id)
    (hsorted : List.Sorted stepNumberLE rows) :
    stepsGetByWorkflowID dbOut wfRow.id = rows := by
  unfold stepsGetByWorkflowID
  rw [hsteps, List.filter_append]
  have h1 : db.steps.filter (fun st => st.workflowID == wfRow.id) = [] :=
    List.filter_eq_nil_iff.mpr (fun st hmem => by simp [hold st hmem])
  have h2 : rows.filter (fun st => st.workflowID == wfRow.id) = rows :=
    List.filter_eq_self.mpr (fun st hmem => by simp [hnew st hmem])
  rw [h1, h2, List.nil_append]
  exact List.Sorted.insertionSort_eq hsorted

/-- C4 (amended): creating a workflow whose resolved step definitions are
numbered 1..N yields exactly N persisted steps carrying those step numbers,
with total_steps = N, current_step = 1 and status in_progress, inserted
atomically together with the header; reading the workflow's steps back
returns the same N rows in order. -/
theorem C4_create_roundtrip
    (ident : IdentityResolver) (db : DB) (now : Nat) (invoice : Invoice)
    (submittedBy : String) (ruleOpt : Option ApprovalRule)
    (hrule : FindMatchingRule db invoice.entityID invoice.totalAmount
      (some invoice.vendorID)
      (match invoice.lines with
       | line :: _ => line.dimension2
       | [] => none) = .ok ruleOpt)
    (hnum : (resolveStepDefs ruleOpt).map (fun d => d.step)
      = (List.range' 1 (resolveStepDefs ruleOpt).length).map Int.ofNat)
    (hfresh : ∀ st ∈ db.steps, st.workflowID ≠ freshId db.nextID) :
    ∃ wf steps db1,
      CreateApprovalWorkflow ident db now invoice submittedBy
        = .ok (wf, steps, db1) ∧
      steps.length = (resolveStepDefs ruleOpt).length ∧
      steps.map (fun s => s.stepNumber)
        = (resolveStepDefs ruleOpt).map (fun d => d.step) ∧
      wf.totalSteps = Int.ofNat (resolveStepDefs ruleOpt).length ∧
      wf.currentStep = 1 ∧
      wf.status = "in_progress" ∧
      db1.workflows = db.workflows ++ [wf] ∧
      db1.steps = db.steps ++ steps ∧
      stepsGetByWorkflowID db1 wf.id = steps := by
  have hins : ∀ wfRow : ApprovalWorkflow,
      stepRowsInsertable (assignStepRows wfRow db.nextID now
        (buildSteps ident now invoice.entityID (resolveStepDefs ruleOpt))) = true := by
    intro wfRow
    apply stepRowsInsertable_of_range
    rw [assignStepRows_stepNumbers, buildSteps_stepNumbers,
      assignStepRows_length, buildSteps_length]
    exact hnum
  simp only [CreateApprovalWorkflow, hrule, workflowCreate, hins, if_true]
  refine ⟨_, _, _, rfl, ?_, ?_, ?_, rfl, rfl, rfl, rfl, ?_⟩
  · rw [assignStepRows_length, buildSteps_length]
  · rw [assignStepRows_stepNumbers, buildSteps_stepNumbers]
  · show Int.ofNat (buildSteps ident now invoice.entityID
        (resolveStepDefs ruleOpt)).length = Int.ofNat (resolveStepDefs ruleOpt).length
    rw [buildSteps_length]
  · apply stepsGetByWorkflowID_roundtrip db
    · rfl
    · intro st hmem
      exact hfresh st hmem
    · intro st hmem
      exact assignStepRows_workflowID _ _ _ _ hmem
    · apply sorted_of_range_numbers
      rw [assignStepRows_stepNumbers, buildSteps_stepNumbers,
        assignStepRows_length, buildSteps_length]
      exact hnum

/-- Witness for C4 (amended): with no rules, creation falls back to the single
default step numbered 1; one step is persisted, total_steps is 1, current_step
is 1, and reading the steps back returns that one row. -/
theorem C4_witness :
    ∃ wf steps db1,
      CreateApprovalWorkflow identDown dbFix2 7 invFix "sam" = .ok (wf, steps, db1) ∧
      steps.length = (resolveStepDefs none).length ∧
      steps.map (fun s => s.stepNumber)
        = (resolveStepDefs none).map (fun d => d.step) ∧
      wf.totalSteps = Int.ofNat (resolveStepDefs none).length ∧
      wf.currentStep = 1 ∧
      wf.status = "in_progress" ∧
      db1.workflows = dbFix2.workflows ++ [wf] ∧
      db1.steps = dbFix2.steps ++ steps ∧
      stepsGetByWorkflowID db1 wf.id = steps :=
  C4_create_roundtrip identDown dbFix2 7 invFix "sam" none rfl (by decide) (by decide)

end APInvoices
